import Mathlib

/-!
Verification of the change-feed subsystem of the go-couch library
(`changes.go`, with the `Database` descriptor from `couch.go`).

The Go code is shallowly embedded as follows.

* Go `interface{}` values stored in the options map of the caller (and returned by
  a `ChangeHandler`) become the inductive `OptVal`.  The untyped nil interface
  is `OptVal.vnil`.  `float64` values are represented as exact decimals
  `m * 10^(-e)` (every concrete float64 is an exact decimal);
  values of any other dynamic type are `OptVal.vother r` where `r` is their
  `fmt` rendering, since `i64defopt` treats all of them alike (default branch).
* `int`/`int64` arithmetic is `Int` with an explicit wrap-around
  (`wrap64`) exactly where the Go code can overflow (the duration product
  `time.Millisecond * time.Duration(heartbeatTime*2)`).
* `url.Values` becomes an association list `Params`; `Set` and `Del` mirror
  the map update/delete, and `findParam` is the map lookup (`Encode` prints
  one `k=v` pair per entry, so presence in `Params` is presence in the query
  string).
* The network is an oracle: each `client.Get` call is one `ConnOutcome` —
  either `connFail` (the transport/dial error branch, `err != nil`) or
  `connOk status` (a response was delivered; note `http.Client.Get` returns
  `err == nil` for every received response regardless of its HTTP status).
  The loop in `Database.Changes` is structurally recursive on the list of
  outcomes; exhausting the list leaves the loop `running` (it never returns
  by itself).  Observable actions (request attempts with their query
  parameters, backoff sleeps, handler invocations) are recorded as
  `LoopEvent`s.
* A `ChangeHandler` is abstracted by the sequence of values it returns:
  `handler : Nat → OptVal` gives the value returned by its n-th invocation.
  The bytes it reads do not influence the control flow of the loop.
-/

/-- Wrap of an integer into the `int64` range `[-2^63, 2^63)`, modelling
the wrapping Go `int64` arithmetic. -/
def wrap64 (n : Int) : Int := (n + 2 ^ 63) % 2 ^ 64 - 2 ^ 63

/-- Model of a Go `interface{}` value as it can occur in the options map of
`Database.Changes` or as a `ChangeHandler` return value. -/
inductive OptVal : Type
  /-- the untyped nil interface -/
  | vnil : OptVal
  /-- a Go `int` (64-bit) -/
  | vint (i : Int) : OptVal
  /-- a Go `int64` -/
  | vint64 (i : Int) : OptVal
  /-- a Go `float64`, represented as the exact decimal `m * 10^(-e)` -/
  | vfloat64 (m : Int) (e : Nat) : OptVal
  /-- a Go `string` -/
  | vstr (s : String) : OptVal
  /-- a value of any other dynamic type; `r` is its `fmt` `%v` rendering -/
  | vother (r : String) : OptVal
deriving DecidableEq

/-- Decimal digits of `n` left-padded with zeros to `e` characters
(the fractional part of a decimal float rendering). -/
def fracDigits (n : Nat) (e : Nat) : String :=
  let s := toString n
  String.mk (List.replicate (e - s.length) '0') ++ s

/-- Drop trailing zero characters (used when rendering decimal fractions,
as the Go shortest-float formatting does not print trailing zeros). -/
def trimZeros (s : String) : String :=
  String.mk (s.toList.reverse.dropWhile (fun c => c = '0')).reverse

/-- Model of `fmt.Sprintf("%v", v)` for the dynamic values in scope.
Integers print in decimal with a leading minus for negatives, strings print
verbatim, nil prints as the Go rendering `<nil>`, and the decimal floats in scope print
integer part, dot, fraction without trailing zeros. -/
def govFormat : OptVal → String
  | OptVal.vnil => "<nil>"
  | OptVal.vint i => toString i
  | OptVal.vint64 i => toString i
  | OptVal.vfloat64 m e =>
      if e = 0 then toString m
      else
        let n := m.natAbs
        let ip := n / 10 ^ e
        let fr := trimZeros (fracDigits (n % 10 ^ e) e)
        (if m < 0 then "-" else "") ++ toString ip ++
          (if fr = "" then "" else "." ++ fr)
  | OptVal.vstr s => s
  | OptVal.vother r => r

/-- Numeric value of a list of decimal digit characters; `none` if the list
is empty or contains a non-digit. -/
def digitsVal (cs : List Char) : Option Nat :=
  if cs = [] then none
  else
    cs.foldl
      (fun acc c =>
        match acc with
        | none => none
        | some n => if c.isDigit then some (n * 10 + (c.toNat - 48)) else none)
      (some 0)

/-- Model of `strconv.ParseInt(s, 10, 64)` restricted to the success/failure
information `i64defopt` uses: an optional sign followed by decimal digits,
accepted only when the value fits in `int64` (on a range error Go returns a
clamped value together with a non-nil error, and `i64defopt` only uses the
result when the error is nil). -/
def goParseInt64 (s : String) : Option Int :=
  let cs := s.toList
  let p : Bool × List Char :=
    match cs with
    | '-' :: t => (true, t)
    | '+' :: t => (false, t)
    | t => (false, t)
  match digitsVal p.2 with
  | none => none
  | some n =>
      let v : Int := if p.1 then -(n : Int) else (n : Int)
      if -(2 ^ 63) ≤ v ∧ v ≤ 2 ^ 63 - 1 then some v else none

/-- Go map lookup `opts[k]` returning whether the key is present
(the `ok` of `l, ok := opts[k]`).  The options map is modelled as an
association list with (as in any Go map) pairwise distinct keys. -/
def optFind (opts : List (String × OptVal)) (k : String) : Option OptVal :=
  (opts.find? (fun kv => kv.1 = k)).map (fun kv => kv.2)

/-- Go map index `opts[k]` in value position: the nil interface when the key
is absent (this is what `since := options["since"]` evaluates to). -/
def optLookup (opts : List (String × OptVal)) (k : String) : OptVal :=
  (optFind opts k).getD OptVal.vnil

/-- Translation of `i64defopt` from `changes.go`: read option `k` as an
`int64`, falling back to the default `d` when the key is absent, the value
has an unsupported dynamic type (the logging `default:` branch, which also
catches a nil value), or the value is a string that `strconv.ParseInt`
rejects.  A `float64` converts by truncation toward zero. -/
def i64defopt (opts : List (String × OptVal)) (k : String) (d : Int) : Int :=
  match optFind opts k with
  | none => d
  | some v =>
      match v with
      | OptVal.vint i => i
      | OptVal.vint64 i => i
      | OptVal.vfloat64 m e => Int.tdiv m ((10 : Int) ^ e)
      | OptVal.vstr s =>
          match goParseInt64 s with
          | some l => l
          | none => d
      | _ => d

/-- Query parameters of one request, modelling `url.Values` (each key maps to
one value here, as the loop only ever uses `Set`). -/
abbrev Params := List (String × String)

/-- Model of `url.Values.Del`: remove the key. -/
def paramsDel (ps : Params) (k : String) : Params :=
  ps.filter (fun kv => kv.1 ≠ k)

/-- Model of `url.Values.Set`: the key now maps to exactly this value. -/
def paramsSet (ps : Params) (k v : String) : Params :=
  (k, v) :: paramsDel ps k

/-- Lookup of a key in built query parameters; `some v` exactly when the
encoded query string contains the pair `k=v`. -/
def findParam (ps : Params) (k : String) : Option String :=
  (ps.find? (fun kv => kv.1 = k)).map (fun kv => kv.2)

/-- The option-merging loop of `Database.Changes`: `Set` every entry of the
options map whose value is not nil, formatted with `%v` (map iteration
order is immaterial because keys are distinct). -/
def baseParams (options : List (String × OptVal)) : Params :=
  options.foldr
    (fun kv ps =>
      if kv.2 = OptVal.vnil then ps else paramsSet ps kv.1 (govFormat kv.2))
    []

/-- Per-iteration query construction of `Database.Changes` (lines 110-126 of
`changes.go`): merge non-nil options, then override `since` from the current
cursor when it is non-nil, then `Set` `heartbeat` to the effective heartbeat
when that is positive and `Del` it otherwise. -/
def buildParams (options : List (String × OptVal)) (since : OptVal)
    (hb : Int) : Params :=
  let ps := baseParams options
  let ps := if since ≠ OptVal.vnil then paramsSet ps "since" (govFormat since)
            else ps
  if 0 < hb then paramsSet ps "heartbeat" (toString hb)
  else paramsDel ps "heartbeat"

/-- The query parameters of the first request a `Database.Changes` call
builds: the cursor starts as `options["since"]` and the effective heartbeat
is `i64defopt(options, "heartbeat", 5000)`. -/
def firstParams (options : List (String × OptVal)) : Params :=
  buildParams options (optLookup options "since")
    (i64defopt options "heartbeat" 5000)

/-- The read timeout (in nanoseconds) computed by `Database.Changes`:
`time.Minute` when the effective heartbeat is not positive, otherwise
`time.Millisecond * time.Duration(heartbeatTime*2)` — a product of wrapping
`int64` multiplications (`time.Duration` is an `int64` nanosecond count). -/
def changesTimeoutNs (hb : Int) : Int :=
  if 0 < hb then wrap64 (1000000 * wrap64 (hb * 2)) else 60000000000

/-- Outcome of one `client.Get(fullURL)` call in the loop, as delivered by
the environment (network plus dial hook): `connFail` is the `err != nil`
branch (dial error, transport error, malformed URL); `connOk status` is a
delivered response carrying its HTTP status code — `Get` reports `err == nil`
for every delivered response, whatever the status. -/
inductive ConnOutcome : Type
  | connFail : ConnOutcome
  | connOk (status : Nat) : ConnOutcome
deriving DecidableEq

/-- Observable action of the `Database.Changes` loop. -/
inductive LoopEvent : Type
  /-- a request was issued with these query parameters -/
  | attempt (ps : Params) : LoopEvent
  /-- `time.Sleep(p.changesFailDelay)` after a failed connection -/
  | sleep (delayNs : Int) : LoopEvent
  /-- the n-th invocation of the handler, on a response with this HTTP status,
  reading through a deadline-enforcing reader with this timeout -/
  | invoke (n : Nat) (status : Nat) (timeoutNs : Int) : LoopEvent
deriving DecidableEq

/-- State of one `Database.Changes` run after consuming a list of connection
outcomes: either the function has returned (`done`, with the events that
happened and the returned error value), or the loop is still going
(`running`, with the events so far, the current cursor and the number of
handler invocations so far). -/
inductive RunState : Type
  | done (events : List LoopEvent) (err : Option String) : RunState
  | running (events : List LoopEvent) (since : OptVal) (calls : Nat) : RunState
deriving DecidableEq

/-- The events recorded in a run state. -/
def RunState.events : RunState → List LoopEvent
  | RunState.done evs _ => evs
  | RunState.running evs _ _ => evs

/-- Prepend earlier events to a run state. -/
def RunState.addEvents (pre : List LoopEvent) : RunState → RunState
  | RunState.done evs err => RunState.done (pre ++ evs) err
  | RunState.running evs since calls => RunState.running (pre ++ evs) since calls

/-- Translation of the `for` loop of `Database.Changes` (lines 109-162 of
`changes.go`), structurally recursive on the list of connection outcomes.
Each iteration builds the query from the options, the current cursor and the
effective heartbeat, then issues the request.  On `connFail` (the
`err != nil` branch) it logs, sleeps the configured delay and retries with
the cursor unchanged.  On `connOk` it invokes the handler (closing body and
socket afterwards), stores its return value in `since`, and either returns
`nil` (when the handler returned the nil interface) or loops. -/
def changesRun (options : List (String × OptVal)) (failDelay : Int)
    (handler : Nat → OptVal) :
    OptVal → Nat → List ConnOutcome → RunState
  | since, calls, [] => RunState.running [] since calls
  | since, calls, outcome :: rest =>
    let hb := i64defopt options "heartbeat" 5000
    let ps := buildParams options since hb
    match outcome with
    | ConnOutcome.connFail =>
        RunState.addEvents [LoopEvent.attempt ps, LoopEvent.sleep failDelay]
          (changesRun options failDelay handler since calls rest)
    | ConnOutcome.connOk status =>
        let newSince := handler calls
        if newSince = OptVal.vnil then
          RunState.done
            [LoopEvent.attempt ps,
             LoopEvent.invoke calls status (changesTimeoutNs hb)] none
        else
          RunState.addEvents
            [LoopEvent.attempt ps,
             LoopEvent.invoke calls status (changesTimeoutNs hb)]
            (changesRun options failDelay handler newSince (calls + 1) rest)

/-- The fields of the `Database` descriptor (`couch.go`) that the change-feed
loop reads.  The dial hook `changesDialer` is abstracted into the
`ConnOutcome` oracle; `changesFailDelay` is the backoff sleep duration. -/
structure Database : Type where
  Host : String
  Port : String
  Name : String
  changesFailDelay : Int
deriving DecidableEq

/-- Translation of the `Database.Changes` method: initialise the cursor from
`options["since"]`, then run the loop. -/
def Database.Changes (p : Database) (handler : Nat → OptVal)
    (options : List (String × OptVal)) (outcomes : List ConnOutcome) :
    RunState :=
  changesRun options p.changesFailDelay handler (optLookup options "since") 0
    outcomes

/-- Result of one `Read` on an `io.Reader`: the byte count and the error
value (`none` is a nil error; `some` carries the error text, end-of-stream
included). -/
structure ReadResult : Type where
  n : Int
  err : Option String
deriving DecidableEq

/-- Observable action of the deadline-enforcing reader: a
`SetReadDeadline(t)` call on the underlying socket, or a delegated `Read` on
the wrapped body returning the given result. -/
inductive TCEvent : Type
  | setDeadline (t : Int) : TCEvent
  | bodyRead (r : ReadResult) : TCEvent
deriving DecidableEq

/-- The configuration of `timeoutClient` (`changes.go`): the wrapped body
and the socket are abstracted into the event trace; what remains is the
configured read timeout in nanoseconds. -/
structure timeoutClient : Type where
  readTimeout : Int
deriving DecidableEq

/-- Translation of `timeoutClient.Read`: when the configured timeout is
positive, set a read deadline of `now + timeout` on the underlying socket,
then delegate to the `Read` of the body, whose result (`bodyResult`, scripted by
the environment) is returned unchanged.  The returned event list records
what happened, in order. -/
def timeoutClient.Read (tc : timeoutClient) (now : Int)
    (bodyResult : ReadResult) : List TCEvent × ReadResult :=
  ((if 0 < tc.readTimeout then [TCEvent.setDeadline (now + tc.readTimeout)]
    else []) ++ [TCEvent.bodyRead bodyResult],
   bodyResult)

/-- A sequence of `Read` calls on the same `timeoutClient`; `script` pairs
the wall-clock time of each call with the result the wrapped body delivers
to it.  Returns the concatenated event trace and the results the caller
sees. -/
def timeoutClient.reads (tc : timeoutClient) :
    List (Int × ReadResult) → List TCEvent × List ReadResult
  | [] => ([], [])
  | (now, br) :: rest =>
      let one := timeoutClient.Read tc now br
      let more := timeoutClient.reads tc rest
      (one.1 ++ more.1, one.2 :: more.2)

/-- JSON value tree.  `encoding/json` is modelled at the level of the value
tree a byte stream denotes: serialising a tree and re-scanning the bytes is
the identity on trees, so the round-trip content of `ReadAllChanges` lives
here.  Numbers are exact decimals `m * 10^(-e)`. -/
inductive Json : Type
  | null : Json
  | bool (b : Bool) : Json
  | num (m : Int) (e : Nat) : Json
  | str (s : String) : Json
  | arr (xs : List Json) : Json
  | obj (fields : List (String × Json)) : Json

/-- Translation of the `ChangedRev` wire struct (`changes.go`): field tag
`rev`. -/
structure ChangedRev : Type where
  Revision : String

/-- Translation of the `Change` wire struct: tags `seq`, `id`, `changes`,
`deleted`.  `Sequence` has Go type `interface{}`; a decoded JSON value held
in an interface is a `Json` tree here. -/
structure Change : Type where
  Sequence : Json
  Id : String
  ChangedRevs : List ChangedRev
  Deleted : Bool

/-- Translation of the `Changes` envelope struct: tags `results`,
`last_seq`. -/
structure Changes : Type where
  Results : List Change
  LastSequence : Json

/-- Lookup of a key in the field list of a JSON object. -/
def jlookup (fs : List (String × Json)) (k : String) : Option Json :=
  (fs.find? (fun kv => kv.1 = k)).map (fun kv => kv.2)

/-- `json.Marshal` of a `ChangedRev`. -/
def marshalChangedRev (r : ChangedRev) : Json :=
  Json.obj [("rev", Json.str r.Revision)]

/-- `json.Marshal` of a `Change`. -/
def marshalChange (c : Change) : Json :=
  Json.obj
    [("seq", c.Sequence), ("id", Json.str c.Id),
     ("changes", Json.arr (c.ChangedRevs.map marshalChangedRev)),
     ("deleted", Json.bool c.Deleted)]

/-- `json.Marshal` of a `Changes` envelope. -/
def marshalChanges (cs : Changes) : Json :=
  Json.obj
    [("results", Json.arr (cs.Results.map marshalChange)),
     ("last_seq", cs.LastSequence)]

/-- Error-propagating map over a list, as `encoding/json` decodes the
elements of a JSON array one after the other. -/
def mapME {α β : Type} (f : α → Except String β) :
    List α → Except String (List β)
  | [] => Except.ok []
  | x :: xs =>
      match f x with
      | Except.error e => Except.error e
      | Except.ok y =>
          match mapME f xs with
          | Except.error e => Except.error e
          | Except.ok ys => Except.ok (y :: ys)

/-- Decoding a JSON value into a Go `string` field: a missing key or a JSON
null leaves the zero value, a string decodes to itself, anything else is a
type error. -/
def decodeStringField : Option Json → Except String String
  | none => Except.ok ""
  | some Json.null => Except.ok ""
  | some (Json.str s) => Except.ok s
  | some _ => Except.error "json: cannot unmarshal value into field of type string"

/-- Decoding a JSON value into a Go `bool` field. -/
def decodeBoolField : Option Json → Except String Bool
  | none => Except.ok false
  | some Json.null => Except.ok false
  | some (Json.bool b) => Except.ok b
  | some _ => Except.error "json: cannot unmarshal value into field of type bool"

/-- Decoding one element of the `changes` array into a `ChangedRev`:
unknown keys are ignored, a missing or null `rev` leaves the zero value,
null decodes to the zero struct. -/
def decodeChangedRev : Json → Except String ChangedRev
  | Json.obj fs =>
      (match decodeStringField (jlookup fs "rev") with
       | Except.error e => Except.error e
       | Except.ok s => Except.ok (ChangedRev.mk s))
  | Json.null => Except.ok (ChangedRev.mk "")
  | _ => Except.error "json: cannot unmarshal value into ChangedRev"

/-- Decoding the `changes` key into the `[]ChangedRev` field: a missing key
or null gives the nil slice. -/
def decodeRevsField : Option Json → Except String (List ChangedRev)
  | none => Except.ok []
  | some Json.null => Except.ok []
  | some (Json.arr xs) => mapME decodeChangedRev xs
  | some _ => Except.error "json: cannot unmarshal value into field of type slice"

/-- Decoding one element of the `results` array into a `Change`.  The
`interface{}`-typed `seq` field receives the JSON value itself (nil — here
`Json.null` — when the key is missing or null). -/
def decodeChange : Json → Except String Change
  | Json.obj fs =>
      (match decodeStringField (jlookup fs "id") with
       | Except.error e => Except.error e
       | Except.ok id =>
         match decodeRevsField (jlookup fs "changes") with
         | Except.error e => Except.error e
         | Except.ok revs =>
           match decodeBoolField (jlookup fs "deleted") with
           | Except.error e => Except.error e
           | Except.ok del =>
               Except.ok
                 (Change.mk ((jlookup fs "seq").getD Json.null) id revs del))
  | Json.null => Except.ok (Change.mk Json.null "" [] false)
  | _ => Except.error "json: cannot unmarshal value into Change"

/-- Decoding the `results` key into the `[]Change` field. -/
def decodeResultsField : Option Json → Except String (List Change)
  | none => Except.ok []
  | some Json.null => Except.ok []
  | some (Json.arr xs) => mapME decodeChange xs
  | some _ => Except.error "json: cannot unmarshal value into field of type slice"

/-- Translation of `ReadAllChanges` (`changes.go`): one-shot JSON decode of
the byte stream into a `Changes` envelope, here applied to the JSON value
tree the stream denotes. -/
def ReadAllChanges (j : Json) : Except String Changes :=
  match j with
  | Json.obj fs =>
      (match decodeResultsField (jlookup fs "results") with
       | Except.error e => Except.error e
       | Except.ok res =>
           Except.ok (Changes.mk res ((jlookup fs "last_seq").getD Json.null)))
  | Json.null => Except.ok (Changes.mk [] Json.null)
  | _ => Except.error "json: cannot unmarshal value into Changes"

theorem wrap64_eq_of_bounds (n : Int) (h1 : -(2 ^ 63) ≤ n) (h2 : n < 2 ^ 63) :
    wrap64 n = n := by
  unfold wrap64
  omega

theorem findParam_cons (a : String × String) (l : Params) (q : String) :
    findParam (a :: l) q = if a.1 = q then some a.2 else findParam l q := by
  by_cases hq : a.1 = q
  · simp only [findParam]
    rw [List.find?_cons_of_pos _ (by simpa using hq), if_pos hq]
    rfl
  · simp only [findParam]
    rw [List.find?_cons_of_neg _ (by simpa using hq), if_neg hq]

theorem paramsDel_cons (a : String × String) (l : Params) (k : String) :
    paramsDel (a :: l) k
      = if a.1 = k then paramsDel l k else a :: paramsDel l k := by
  by_cases hk : a.1 = k
  · simp [paramsDel, List.filter_cons, hk]
  · simp [paramsDel, List.filter_cons, hk]

theorem optFind_cons (a : String × OptVal) (l : List (String × OptVal))
    (k : String) :
    optFind (a :: l) k = if a.1 = k then some a.2 else optFind l k := by
  by_cases hk : a.1 = k
  · simp only [optFind]
    rw [List.find?_cons_of_pos _ (by simpa using hk), if_pos hk]
    rfl
  · simp only [optFind]
    rw [List.find?_cons_of_neg _ (by simpa using hk), if_neg hk]

theorem baseParams_cons (a : String × OptVal) (l : List (String × OptVal)) :
    baseParams (a :: l)
      = if a.2 = OptVal.vnil then baseParams l
        else paramsSet (baseParams l) a.1 (govFormat a.2) := by
  simp only [baseParams, List.foldr_cons]

theorem findParam_del_self (ps : Params) (k : String) :
    findParam (paramsDel ps k) k = none := by
  induction ps with
  | nil => rfl
  | cons a t ih =>
    rw [paramsDel_cons]
    by_cases hk : a.1 = k
    · rw [if_pos hk]
      exact ih
    · rw [if_neg hk, findParam_cons, if_neg hk]
      exact ih

theorem findParam_del_other (ps : Params) (k q : String) (h : q ≠ k) :
    findParam (paramsDel ps k) q = findParam ps q := by
  induction ps with
  | nil => rfl
  | cons a t ih =>
    rw [paramsDel_cons, findParam_cons]
    by_cases hk : a.1 = k
    · have hq : ¬(a.1 = q) := fun e => h ((e.symm.trans hk).symm ▸ rfl)
      rw [if_pos hk, if_neg hq]
      exact ih
    · rw [if_neg hk, findParam_cons]
      by_cases hq : a.1 = q
      · rw [if_pos hq, if_pos hq]
      · rw [if_neg hq, if_neg hq]
        exact ih

theorem findParam_set_self (ps : Params) (k v : String) :
    findParam (paramsSet ps k v) k = some v := by
  simp only [paramsSet]
  rw [findParam_cons, if_pos rfl]

theorem findParam_set_other (ps : Params) (k v q : String) (h : q ≠ k) :
    findParam (paramsSet ps k v) q = findParam ps q := by
  simp only [paramsSet]
  rw [findParam_cons, if_neg (fun e => h e.symm)]
  exact findParam_del_other ps k q h

theorem optFind_eq_none_of_not_mem (opts : List (String × OptVal)) (k : String)
    (h : k ∉ opts.map Prod.fst) : optFind opts k = none := by
  induction opts with
  | nil => rfl
  | cons a t ih =>
    simp only [List.map_cons, List.mem_cons] at h
    push_neg at h
    rw [optFind_cons, if_neg (fun e => h.1 e.symm)]
    exact ih h.2

theorem findParam_baseParams (options : List (String × OptVal)) (k : String)
    (hnd : (options.map Prod.fst).Nodup) :
    findParam (baseParams options) k
      = match optFind options k with
        | some v => if v = OptVal.vnil then none else some (govFormat v)
        | none => none := by
  induction options with
  | nil => rfl
  | cons a t ih =>
    simp only [List.map_cons, List.nodup_cons] at hnd
    obtain ⟨hmem, hnd⟩ := hnd
    rw [baseParams_cons, optFind_cons]
    by_cases hk : a.1 = k
    · subst hk
      have hnone : optFind t a.1 = none := optFind_eq_none_of_not_mem t a.1 hmem
      rw [if_pos rfl]
      by_cases hv : a.2 = OptVal.vnil
      · rw [if_pos hv, ih hnd, hnone]
        exact (if_pos hv).symm
      · rw [if_neg hv, findParam_set_self]
        exact (if_neg hv).symm
    · rw [if_neg hk]
      by_cases hv : a.2 = OptVal.vnil
      · rw [if_pos hv]
        exact ih hnd
      · rw [if_neg hv, findParam_set_other _ _ _ _ (fun e => hk e.symm)]
        exact ih hnd

theorem findParam_buildParams_heartbeat (options : List (String × OptVal))
    (since : OptVal) (hb : Int) :
    findParam (buildParams options since hb) "heartbeat"
      = if 0 < hb then some (toString hb) else none := by
  unfold buildParams
  by_cases hpos : 0 < hb
  · rw [if_pos hpos, if_pos hpos]
    exact findParam_set_self _ _ _
  · rw [if_neg hpos, if_neg hpos]
    exact findParam_del_self _ _

theorem findParam_buildParams_since (options : List (String × OptVal))
    (since : OptVal) (hb : Int) (h : since ≠ OptVal.vnil) :
    findParam (buildParams options since hb) "since"
      = some (govFormat since) := by
  unfold buildParams
  have hne : ("since" : String) ≠ "heartbeat" := by decide
  by_cases hpos : 0 < hb
  · rw [if_pos hpos, findParam_set_other _ _ _ _ hne, if_pos h]
    exact findParam_set_self _ _ _
  · rw [if_neg hpos, findParam_del_other _ _ _ hne, if_pos h]
    exact findParam_set_self _ _ _

theorem findParam_buildParams_other (options : List (String × OptVal))
    (since : OptVal) (hb : Int) (k : String)
    (hk1 : k ≠ "heartbeat") (hk2 : k ≠ "since")
    (hnd : (options.map Prod.fst).Nodup) :
    findParam (buildParams options since hb) k
      = match optFind options k with
        | some v => if v = OptVal.vnil then none else some (govFormat v)
        | none => none := by
  unfold buildParams
  have step1 :
      findParam
        (if since ≠ OptVal.vnil
         then paramsSet (baseParams options) "since" (govFormat since)
         else baseParams options) k
        = findParam (baseParams options) k := by
    by_cases hs : since ≠ OptVal.vnil
    · rw [if_pos hs, findParam_set_other _ _ _ _ hk2]
    · rw [if_neg hs]
  by_cases hpos : 0 < hb
  · rw [if_pos hpos, findParam_set_other _ _ _ _ hk1, step1]
    exact findParam_baseParams options k hnd
  · rw [if_neg hpos, findParam_del_other _ _ _ hk1, step1]
    exact findParam_baseParams options k hnd

/-- C1, counterexample: the claim fails at the options map
`heartbeat = 2^62`.  The effective heartbeat is positive, yet the timeout
handed to the reader is not `2*h` milliseconds: the Go `int64` products
`heartbeatTime*2` and `time.Millisecond * time.Duration(...)` both wrap, and
the computed timeout is 0 nanoseconds. -/
theorem changes_timeout_overflow_cex :
    0 < i64defopt [("heartbeat", OptVal.vint64 4611686018427387904)]
        "heartbeat" 5000
    ∧ changesTimeoutNs
        (i64defopt [("heartbeat", OptVal.vint64 4611686018427387904)]
          "heartbeat" 5000)
      ≠ 2 * i64defopt [("heartbeat", OptVal.vint64 4611686018427387904)]
            "heartbeat" 5000 * 1000000 := by
  constructor
  · decide
  · decide

/-- C1 (corrected): for every options map with effective heartbeat `h`, if
`h` is positive and `2*h` milliseconds fits in an `int64` nanosecond count
(no overflow), the computed read timeout equals `2*h` milliseconds and the
built query contains `heartbeat=h`; if `h` is zero or negative, the timeout
is exactly 60,000 ms and the heartbeat parameter is absent.  The claim as
frozen omits the no-overflow proviso, which the counterexample forces. -/
theorem changes_timeout_heartbeat (options : List (String × OptVal))
    (since : OptVal) :
    (0 < i64defopt options "heartbeat" 5000 →
      2 * i64defopt options "heartbeat" 5000 * 1000000 < 2 ^ 63 →
      changesTimeoutNs (i64defopt options "heartbeat" 5000)
          = 2 * i64defopt options "heartbeat" 5000 * 1000000
        ∧ findParam
            (buildParams options since (i64defopt options "heartbeat" 5000))
            "heartbeat"
          = some (toString (i64defopt options "heartbeat" 5000)))
    ∧ (i64defopt options "heartbeat" 5000 ≤ 0 →
      changesTimeoutNs (i64defopt options "heartbeat" 5000)
          = 60000 * 1000000
        ∧ findParam
            (buildParams options since (i64defopt options "heartbeat" 5000))
            "heartbeat"
          = none) := by
  constructor
  · intro hpos hbound
    set h := i64defopt options "heartbeat" 5000 with hh
    have h2 : h * 2 ≤ 2 * h * 1000000 := by nlinarith
    have hw1 : wrap64 (h * 2) = h * 2 :=
      wrap64_eq_of_bounds _ (by nlinarith) (by omega)
    have hw2 : wrap64 (1000000 * (h * 2)) = 1000000 * (h * 2) :=
      wrap64_eq_of_bounds _ (by nlinarith) (by nlinarith)
    constructor
    · show changesTimeoutNs h = 2 * h * 1000000
      unfold changesTimeoutNs
      rw [if_pos hpos, hw1, hw2]
      ring
    · rw [findParam_buildParams_heartbeat, if_pos hpos]
  · intro hle
    have hnpos : ¬(0 < i64defopt options "heartbeat" 5000) := by omega
    constructor
    · unfold changesTimeoutNs
      rw [if_neg hnpos]
      norm_num
    · rw [findParam_buildParams_heartbeat, if_neg hnpos]

/-- C1, witness for the amended theorem: at `heartbeat = 3999` the timeout
is `2*3999` ms and the query contains `heartbeat=3999`; at
`heartbeat = -3999` the timeout is 60,000 ms and the parameter is absent. -/
theorem changes_timeout_heartbeat_witness :
    (changesTimeoutNs
        (i64defopt [("heartbeat", OptVal.vint 3999)] "heartbeat" 5000)
      = 2 * i64defopt [("heartbeat", OptVal.vint 3999)] "heartbeat" 5000
          * 1000000
    ∧ findParam
        (buildParams [("heartbeat", OptVal.vint 3999)] OptVal.vnil
          (i64defopt [("heartbeat", OptVal.vint 3999)] "heartbeat" 5000))
        "heartbeat"
      = some
          (toString (i64defopt [("heartbeat", OptVal.vint 3999)]
            "heartbeat" 5000)))
    ∧ (changesTimeoutNs
        (i64defopt [("heartbeat", OptVal.vint (-3999))] "heartbeat" 5000)
      = 60000 * 1000000
    ∧ findParam
        (buildParams [("heartbeat", OptVal.vint (-3999))] OptVal.vnil
          (i64defopt [("heartbeat", OptVal.vint (-3999))] "heartbeat" 5000))
        "heartbeat"
      = none) :=
  ⟨(changes_timeout_heartbeat [("heartbeat", OptVal.vint 3999)]
      OptVal.vnil).1 (by decide) (by decide),
   (changes_timeout_heartbeat [("heartbeat", OptVal.vint (-3999))]
      OptVal.vnil).2 (by decide)⟩

/-- C10 (confirmed): when the options map has no `heartbeat` key, or its
`heartbeat` value has an unsupported dynamic type (nil included), or is a
string that `strconv.ParseInt` rejects, the effective heartbeat is the
default 5000 ms, the built query contains `heartbeat=5000`, and the read
timeout is 10 seconds. -/
theorem heartbeat_default_5000 (options : List (String × OptVal))
    (since : OptVal)
    (h : optFind options "heartbeat" = none
       ∨ optFind options "heartbeat" = some OptVal.vnil
       ∨ (∃ r, optFind options "heartbeat" = some (OptVal.vother r))
       ∨ (∃ s, optFind options "heartbeat" = some (OptVal.vstr s)
            ∧ goParseInt64 s = none)) :
    i64defopt options "heartbeat" 5000 = 5000
    ∧ findParam
        (buildParams options since (i64defopt options "heartbeat" 5000))
        "heartbeat"
      = some "5000"
    ∧ changesTimeoutNs (i64defopt options "heartbeat" 5000)
      = 10000000000 := by
  have h5 : i64defopt options "heartbeat" 5000 = 5000 := by
    unfold i64defopt
    rcases h with h | h | ⟨r, h⟩ | ⟨s, h, hp⟩ <;> rw [h]
    show (match goParseInt64 s with
          | some l => l
          | none => (5000 : Int)) = (5000 : Int)
    rw [hp]
  refine ⟨h5, ?_, ?_⟩
  · rw [h5, findParam_buildParams_heartbeat, if_pos (by norm_num)]
    rfl
  · rw [h5]
    decide

/-- C10, witness: the unparseable string heartbeat value `five` (one of the
cases exercised by the `TestI64Opt` test of the repository) yields the default
5000, `heartbeat=5000` in the query, and a 10-second timeout. -/
theorem heartbeat_default_5000_witness :
    i64defopt [("heartbeat", OptVal.vstr "five")] "heartbeat" 5000 = 5000
    ∧ findParam
        (buildParams [("heartbeat", OptVal.vstr "five")] OptVal.vnil
          (i64defopt [("heartbeat", OptVal.vstr "five")] "heartbeat" 5000))
        "heartbeat"
      = some "5000"
    ∧ changesTimeoutNs
        (i64defopt [("heartbeat", OptVal.vstr "five")] "heartbeat" 5000)
      = 10000000000 :=
  heartbeat_default_5000 [("heartbeat", OptVal.vstr "five")] OptVal.vnil
    (Or.inr (Or.inr (Or.inr ⟨"five", by decide, by decide⟩)))

/-- C7, counterexample: the claim fails at the options map
`since = 858245, heartbeat = -3999` (the scenario of the
`TestChangesWithNegativeHB` test).  The `heartbeat` entry is non-nil,
yet it does not appear in the built query string: the loop deletes the
`heartbeat` parameter whenever the effective heartbeat is not positive. -/
theorem params_nonnil_heartbeat_dropped_cex :
    optFind [("since", OptVal.vint 858245), ("heartbeat", OptVal.vint (-3999))]
        "heartbeat"
      = some (OptVal.vint (-3999))
    ∧ OptVal.vint (-3999) ≠ OptVal.vnil
    ∧ findParam
        (firstParams
          [("since", OptVal.vint 858245),
           ("heartbeat", OptVal.vint (-3999))])
        "heartbeat"
      = none := by
  refine ⟨by decide, by decide, by decide⟩

/-- C7 (corrected): in the query of the first request built by
`Database.Changes`, every nil-valued entry other than `heartbeat` is
excluded and every non-nil entry other than `heartbeat` appears formatted
from its value; the `heartbeat` parameter is special: it is present (as the
effective heartbeat) exactly when the effective heartbeat is positive,
regardless of the type or sign of the entry supplied by the caller.  The
frozen claim wrongly asserted that every non-nil entry appears. -/
theorem findParam_buildParams_since_nil (options : List (String × OptVal))
    (hb : Int) :
    findParam (buildParams options OptVal.vnil hb) "since"
      = findParam (baseParams options) "since" := by
  have hne : ("since" : String) ≠ "heartbeat" := by decide
  have hs2 : ¬(OptVal.vnil ≠ OptVal.vnil) := fun e => e rfl
  simp only [buildParams, if_neg hs2]
  by_cases hpos : 0 < hb
  · rw [if_pos hpos, findParam_set_other _ _ _ _ hne]
  · rw [if_neg hpos, findParam_del_other _ _ _ hne]

theorem changes_params_spec (options : List (String × OptVal))
    (hnd : (options.map Prod.fst).Nodup) :
    (∀ k v, k ≠ "heartbeat" → optFind options k = some v →
      v ≠ OptVal.vnil →
      findParam (firstParams options) k = some (govFormat v))
    ∧ (∀ k, k ≠ "heartbeat" → optFind options k = some OptVal.vnil →
      findParam (firstParams options) k = none)
    ∧ findParam (firstParams options) "heartbeat"
      = (if 0 < i64defopt options "heartbeat" 5000
         then some (toString (i64defopt options "heartbeat" 5000))
         else none) := by
  refine ⟨?_, ?_, ?_⟩
  · intro k v hk hfound hv
    by_cases hs : k = "since"
    · subst hs
      have hsv : optLookup options "since" = v := by
        unfold optLookup
        rw [hfound]
        rfl
      unfold firstParams
      rw [hsv, findParam_buildParams_since _ _ _ hv]
    · unfold firstParams
      rw [findParam_buildParams_other _ _ _ _ hk hs hnd, hfound]
      exact if_neg hv
  · intro k hk hfound
    by_cases hs : k = "since"
    · subst hs
      have hsv : optLookup options "since" = OptVal.vnil := by
        unfold optLookup
        rw [hfound]
        rfl
      unfold firstParams
      rw [hsv, findParam_buildParams_since_nil,
        findParam_baseParams _ _ hnd, hfound]
      rfl
    · unfold firstParams
      rw [findParam_buildParams_other _ _ _ _ hk hs hnd, hfound]
      rfl
  · unfold firstParams
    exact findParam_buildParams_heartbeat _ _ _

/-- C7, witness for the amended theorem: on the options map
`a = "x", b = nil, heartbeat = 7` the non-nil entry `a` appears as `a=x`,
the nil entry `b` is excluded, and the heartbeat parameter follows the
effective heartbeat. -/
theorem changes_params_spec_witness :
    findParam
        (firstParams
          [("a", OptVal.vstr "x"), ("b", OptVal.vnil),
           ("heartbeat", OptVal.vint 7)])
        "a"
      = some "x"
    ∧ findParam
        (firstParams
          [("a", OptVal.vstr "x"), ("b", OptVal.vnil),
           ("heartbeat", OptVal.vint 7)])
        "b"
      = none
    ∧ findParam
        (firstParams
          [("a", OptVal.vstr "x"), ("b", OptVal.vnil),
           ("heartbeat", OptVal.vint 7)])
        "heartbeat"
      = (if 0 < i64defopt
              [("a", OptVal.vstr "x"), ("b", OptVal.vnil),
               ("heartbeat", OptVal.vint 7)]
              "heartbeat" 5000
         then some
            (toString
              (i64defopt
                [("a", OptVal.vstr "x"), ("b", OptVal.vnil),
                 ("heartbeat", OptVal.vint 7)]
                "heartbeat" 5000))
         else none) :=
  ⟨(changes_params_spec _ (by decide)).1 "a" (OptVal.vstr "x") (by decide)
      (by decide) (by decide),
   (changes_params_spec _ (by decide)).2.1 "b" (by decide) (by decide),
   (changes_params_spec _ (by decide)).2.2⟩

/-- C6 (confirmed): over any sequence of `Read` calls on the
deadline-enforcing reader, the caller receives exactly the results the
wrapped body produced; when the configured timeout is positive, each body
read is immediately preceded by a `SetReadDeadline(now + timeout)` on the
underlying socket; when the timeout is zero or negative, no deadline is ever
set. -/
theorem timeoutClient_read_deadline (tc : timeoutClient)
    (script : List (Int × ReadResult)) :
    (timeoutClient.reads tc script).2 = script.map Prod.snd
    ∧ (0 < tc.readTimeout →
        (timeoutClient.reads tc script).1
          = List.flatten
              (script.map (fun p =>
                [TCEvent.setDeadline (p.1 + tc.readTimeout),
                 TCEvent.bodyRead p.2])))
    ∧ (tc.readTimeout ≤ 0 →
        (timeoutClient.reads tc script).1
          = script.map (fun p => TCEvent.bodyRead p.2)) := by
  induction script with
  | nil => exact ⟨rfl, fun _ => rfl, fun _ => rfl⟩
  | cons p rest ih =>
    obtain ⟨ih1, ih2, ih3⟩ := ih
    refine ⟨?_, ?_, ?_⟩
    · simp [timeoutClient.reads, timeoutClient.Read, ih1]
    · intro hpos
      simp [timeoutClient.reads, timeoutClient.Read, if_pos hpos, ih2 hpos]
    · intro hle
      have hnpos : ¬(0 < tc.readTimeout) := by omega
      simp [timeoutClient.reads, timeoutClient.Read, if_neg hnpos, ih3 hle]

theorem events_addEvents (pre : List LoopEvent) (st : RunState) :
    (RunState.addEvents pre st).events = pre ++ st.events := by
  cases st <;> rfl

theorem addEvents_nil (st : RunState) : RunState.addEvents [] st = st := by
  cases st <;> rfl

theorem addEvents_addEvents (a b : List LoopEvent) (st : RunState) :
    RunState.addEvents a (RunState.addEvents b st)
      = RunState.addEvents (a ++ b) st := by
  cases st <;> simp [RunState.addEvents]

theorem changesRun_connFail (options : List (String × OptVal)) (d : Int)
    (hdl : Nat → OptVal) (since : OptVal) (calls : Nat)
    (rest : List ConnOutcome) :
    changesRun options d hdl since calls (ConnOutcome.connFail :: rest)
      = RunState.addEvents
          [LoopEvent.attempt
            (buildParams options since (i64defopt options "heartbeat" 5000)),
           LoopEvent.sleep d]
          (changesRun options d hdl since calls rest) := rfl

theorem changesRun_connOk_nil (options : List (String × OptVal)) (d : Int)
    (hdl : Nat → OptVal) (since : OptVal) (calls : Nat) (stc : Nat)
    (rest : List ConnOutcome) (hnil : hdl calls = OptVal.vnil) :
    changesRun options d hdl since calls (ConnOutcome.connOk stc :: rest)
      = RunState.done
          [LoopEvent.attempt
            (buildParams options since (i64defopt options "heartbeat" 5000)),
           LoopEvent.invoke calls stc
            (changesTimeoutNs (i64defopt options "heartbeat" 5000))]
          none := by
  simp [changesRun, hnil]

theorem changesRun_connOk_cont (options : List (String × OptVal)) (d : Int)
    (hdl : Nat → OptVal) (since : OptVal) (calls : Nat) (stc : Nat)
    (rest : List ConnOutcome) (hne : hdl calls ≠ OptVal.vnil) :
    changesRun options d hdl since calls (ConnOutcome.connOk stc :: rest)
      = RunState.addEvents
          [LoopEvent.attempt
            (buildParams options since (i64defopt options "heartbeat" 5000)),
           LoopEvent.invoke calls stc
            (changesTimeoutNs (i64defopt options "heartbeat" 5000))]
          (changesRun options d hdl (hdl calls) (calls + 1) rest) := by
  simp [changesRun, hne]

theorem changesRun_done (options : List (String × OptVal)) (d : Int)
    (hdl : Nat → OptVal) :
    ∀ (outs : List ConnOutcome) (since : OptVal) (calls : Nat)
      (evs : List LoopEvent) (err : Option String),
      changesRun options d hdl since calls outs = RunState.done evs err →
      err = none
        ∧ ∃ n stc tmo, hdl n = OptVal.vnil
            ∧ evs.getLast? = some (LoopEvent.invoke n stc tmo) := by
  intro outs
  induction outs with
  | nil =>
    intro since calls evs err hyp
    exact absurd hyp (by simp [changesRun])
  | cons o rest ih =>
    intro since calls evs err hyp
    cases o with
    | connFail =>
      rw [changesRun_connFail] at hyp
      cases hr : changesRun options d hdl since calls rest with
      | running evs2 s2 c2 =>
        rw [hr] at hyp
        exact absurd hyp (by simp [RunState.addEvents])
      | done evs2 err2 =>
        rw [hr] at hyp
        simp only [RunState.addEvents, RunState.done.injEq] at hyp
        obtain ⟨hevs, herr⟩ := hyp
        obtain ⟨herr2, n, stc, tmo, hnl, hlast⟩ :=
          ih since calls evs2 err2 hr
        have hne : evs2 ≠ [] := by
          intro he
          rw [he] at hlast
          exact Option.noConfusion hlast
        refine ⟨herr ▸ herr2, n, stc, tmo, hnl, ?_⟩
        rw [← hevs, List.getLast?_append_of_ne_nil _ hne]
        exact hlast
    | connOk stc =>
      by_cases hnl : hdl calls = OptVal.vnil
      · rw [changesRun_connOk_nil _ _ _ _ _ _ _ hnl] at hyp
        simp only [RunState.done.injEq] at hyp
        obtain ⟨hevs, herr⟩ := hyp
        refine ⟨herr.symm, calls,
          stc, changesTimeoutNs (i64defopt options "heartbeat" 5000),
          hnl, ?_⟩
        rw [← hevs]
        rfl
      · rw [changesRun_connOk_cont _ _ _ _ _ _ _ hnl] at hyp
        cases hr : changesRun options d hdl (hdl calls) (calls + 1) rest with
        | running evs2 s2 c2 =>
          rw [hr] at hyp
          exact absurd hyp (by simp [RunState.addEvents])
        | done evs2 err2 =>
          rw [hr] at hyp
          simp only [RunState.addEvents, RunState.done.injEq] at hyp
          obtain ⟨hevs, herr⟩ := hyp
          obtain ⟨herr2, n, stc2, tmo, hnl2, hlast⟩ :=
            ih (hdl calls) (calls + 1) evs2 err2 hr
          have hne : evs2 ≠ [] := by
            intro he
            rw [he] at hlast
            exact Option.noConfusion hlast
          refine ⟨herr ▸ herr2, n, stc2, tmo, hnl2, ?_⟩
          rw [← hevs, List.getLast?_append_of_ne_nil _ hne]
          exact hlast

theorem changesRun_replicate_fail (options : List (String × OptVal)) (d : Int)
    (hdl : Nat → OptVal) (since : OptVal) (calls : Nat) (k : Nat)
    (outs : List ConnOutcome) :
    changesRun options d hdl since calls
        (List.replicate k ConnOutcome.connFail ++ outs)
      = RunState.addEvents
          (List.flatten (List.replicate k
            [LoopEvent.attempt
              (buildParams options since (i64defopt options "heartbeat" 5000)),
             LoopEvent.sleep d]))
          (changesRun options d hdl since calls outs) := by
  induction k with
  | zero => rw [List.replicate_zero, List.nil_append]; exact (addEvents_nil _).symm
  | succ n ih =>
    rw [List.replicate_succ, List.cons_append, changesRun_connFail, ih,
      addEvents_addEvents]
    rw [List.replicate_succ, List.flatten_cons]

theorem changesRun_events_connOk (options : List (String × OptVal)) (d : Int)
    (hdl : Nat → OptVal) (since : OptVal) (calls : Nat) (stc : Nat)
    (rest : List ConnOutcome) :
    ∃ t, (changesRun options d hdl since calls
            (ConnOutcome.connOk stc :: rest)).events
      = LoopEvent.attempt
          (buildParams options since (i64defopt options "heartbeat" 5000))
        :: LoopEvent.invoke calls stc
            (changesTimeoutNs (i64defopt options "heartbeat" 5000))
        :: t := by
  by_cases hnl : hdl calls = OptVal.vnil
  · exact ⟨[], by rw [changesRun_connOk_nil _ _ _ _ _ _ _ hnl]; rfl⟩
  · refine ⟨(changesRun options d hdl (hdl calls) (calls + 1) rest).events, ?_⟩
    rw [changesRun_connOk_cont _ _ _ _ _ _ _ hnl, events_addEvents]
    rfl

theorem changesRun_events_head (options : List (String × OptVal)) (d : Int)
    (hdl : Nat → OptVal) (since : OptVal) (calls : Nat) (o : ConnOutcome)
    (rest : List ConnOutcome) :
    ∃ t, (changesRun options d hdl since calls (o :: rest)).events
      = LoopEvent.attempt
          (buildParams options since (i64defopt options "heartbeat" 5000))
        :: t := by
  cases o with
  | connFail =>
    refine ⟨LoopEvent.sleep d
      :: (changesRun options d hdl since calls rest).events, ?_⟩
    rw [changesRun_connFail, events_addEvents]
    rfl
  | connOk stc =>
    obtain ⟨t, ht⟩ :=
      changesRun_events_connOk options d hdl since calls stc rest
    exact ⟨_, ht⟩

/-- C2 (confirmed): when the handler returns the terminal nil sentinel on
its first invocation, `Database.Changes` performs exactly one connection
attempt, invokes the handler exactly once, and returns the nil error; when
the handler returns a non-terminal value, that value becomes the `since`
parameter of the next request and the loop reconnects. -/
theorem changes_stop_and_resume (db : Database) (hdl : Nat → OptVal)
    (options : List (String × OptVal)) (stc : Nat) (o2 : ConnOutcome)
    (rest : List ConnOutcome) :
    (hdl 0 = OptVal.vnil →
      Database.Changes db hdl options (ConnOutcome.connOk stc :: o2 :: rest)
        = RunState.done
            [LoopEvent.attempt (firstParams options),
             LoopEvent.invoke 0 stc
               (changesTimeoutNs (i64defopt options "heartbeat" 5000))]
            none)
    ∧ (hdl 0 ≠ OptVal.vnil →
      ∃ t, (Database.Changes db hdl options
              (ConnOutcome.connOk stc :: o2 :: rest)).events
          = LoopEvent.attempt (firstParams options)
            :: LoopEvent.invoke 0 stc
                (changesTimeoutNs (i64defopt options "heartbeat" 5000))
            :: LoopEvent.attempt
                (buildParams options (hdl 0)
                  (i64defopt options "heartbeat" 5000))
            :: t
        ∧ findParam
            (buildParams options (hdl 0)
              (i64defopt options "heartbeat" 5000))
            "since"
          = some (govFormat (hdl 0))) := by
  constructor
  · intro hnil
    unfold Database.Changes
    rw [changesRun_connOk_nil _ _ _ _ _ _ _ hnil]
    rfl
  · intro hne
    obtain ⟨t, ht⟩ := changesRun_events_head options db.changesFailDelay hdl
      (hdl 0) 1 o2 rest
    refine ⟨t, ?_, findParam_buildParams_since _ _ _ hne⟩
    unfold Database.Changes
    rw [changesRun_connOk_cont _ _ _ _ _ _ _ hne, events_addEvents, ht]
    rfl

/-- C2, witness: a handler returning nil immediately gives the one-attempt
terminating run; a handler returning 7 leads to a follow-up attempt whose
query contains `since=7`. -/
theorem changes_stop_and_resume_witness :
    Database.Changes (Database.mk "h" "p" "n" 5) (fun _ => OptVal.vnil) []
        [ConnOutcome.connOk 200, ConnOutcome.connOk 200]
      = RunState.done
          [LoopEvent.attempt (firstParams []),
           LoopEvent.invoke 0 200
             (changesTimeoutNs (i64defopt [] "heartbeat" 5000))]
          none
    ∧ ∃ t, (Database.Changes (Database.mk "h" "p" "n" 5)
              (fun _ => OptVal.vint 7) []
              [ConnOutcome.connOk 200, ConnOutcome.connOk 200]).events
        = LoopEvent.attempt (firstParams [])
          :: LoopEvent.invoke 0 200
              (changesTimeoutNs (i64defopt [] "heartbeat" 5000))
          :: LoopEvent.attempt
              (buildParams [] ((fun _ => OptVal.vint 7) 0)
                (i64defopt [] "heartbeat" 5000))
          :: t
        ∧ findParam
            (buildParams [] ((fun _ => OptVal.vint 7) 0)
              (i64defopt [] "heartbeat" 5000))
            "since"
          = some (govFormat ((fun _ => OptVal.vint 7) 0)) :=
  ⟨(changes_stop_and_resume (Database.mk "h" "p" "n" 5) (fun _ => OptVal.vnil)
      [] 200 (ConnOutcome.connOk 200) []).1 rfl,
   (changes_stop_and_resume (Database.mk "h" "p" "n" 5) (fun _ => OptVal.vint 7)
      [] 200 (ConnOutcome.connOk 200) []).2 (by decide)⟩

/-- C3 (confirmed): when the dial hook fails `k` times and then a response
arrives, the loop sleeps the configured delay exactly `k` times before the
handler is invoked (the explicit prefix below contains `k` sleep events and
no invoke event), and every attempt, the successful one included, is built
from the cursor that was in effect before the first failure. -/
theorem changes_backoff_preserves_cursor (db : Database) (hdl : Nat → OptVal)
    (options : List (String × OptVal)) (k : Nat) (stc : Nat)
    (rest : List ConnOutcome) :
    ∃ t, (Database.Changes db hdl options
            (List.replicate k ConnOutcome.connFail
              ++ ConnOutcome.connOk stc :: rest)).events
      = List.flatten (List.replicate k
          [LoopEvent.attempt (firstParams options),
           LoopEvent.sleep db.changesFailDelay])
        ++ LoopEvent.attempt (firstParams options)
        :: LoopEvent.invoke 0 stc
            (changesTimeoutNs (i64defopt options "heartbeat" 5000))
        :: t := by
  obtain ⟨t, ht⟩ := changesRun_events_connOk options db.changesFailDelay hdl
    (optLookup options "since") 0 stc rest
  refine ⟨t, ?_⟩
  unfold Database.Changes
  rw [changesRun_replicate_fail, events_addEvents, ht]
  rfl

/-- C4, counterexample: the claim fails on a response with HTTP status 500.
The loop treats every delivered response alike (`client.Get` reports a nil
error for non-2xx statuses and the status is never inspected): the handler
is invoked on the 500 response, no backoff sleep happens, and because the
handler returns nil the feed even terminates — contradicting "the handler
is never invoked on that connection" and "the loop recovers by sleeping and
retrying". -/
theorem changes_non2xx_invokes_handler_cex :
    Database.Changes (Database.mk "h" "p" "n" 5) (fun _ => OptVal.vnil) []
        [ConnOutcome.connOk 500]
      = RunState.done
          [LoopEvent.attempt [("heartbeat", "5000")],
           LoopEvent.invoke 0 500 10000000000]
          none := by
  decide

/-- C4 (corrected): only transport-level request failures (`client.Get`
returning a non-nil error: dial errors, pre-stream request errors) are
recovered by the log-sleep-retry path, without invoking the handler and
without advancing the cursor; a delivered response is handed to the handler
regardless of its HTTP status — non-2xx responses are not treated as
connection failures. -/
theorem changes_failure_recovery (db : Database) (hdl : Nat → OptVal)
    (options : List (String × OptVal)) (stc : Nat)
    (rest : List ConnOutcome) :
    (Database.Changes db hdl options (ConnOutcome.connFail :: rest)
      = RunState.addEvents
          [LoopEvent.attempt (firstParams options),
           LoopEvent.sleep db.changesFailDelay]
          (changesRun options db.changesFailDelay hdl
            (optLookup options "since") 0 rest))
    ∧ (∃ t, (Database.Changes db hdl options
              (ConnOutcome.connOk stc :: rest)).events
        = LoopEvent.attempt (firstParams options)
          :: LoopEvent.invoke 0 stc
              (changesTimeoutNs (i64defopt options "heartbeat" 5000))
          :: t) := by
  constructor
  · rfl
  · exact changesRun_events_connOk options db.changesFailDelay hdl
      (optLookup options "since") 0 stc rest

/-- C5 (confirmed): `Database.Changes` has a single return statement,
`return nil`.  Every terminating run returns the nil error and ends with a
handler invocation that returned the terminal sentinel, arbitrarily many
preceding connection failures notwithstanding; in particular a non-nil
error is returned only if the very first request cannot be built — a case
the code in fact also retries rather than ever returning an error. -/
theorem changes_returns_nil :
    (∀ (db : Database) (hdl : Nat → OptVal)
      (options : List (String × OptVal)) (outcomes : List ConnOutcome)
      (evs : List LoopEvent) (err : Option String),
        Database.Changes db hdl options outcomes = RunState.done evs err →
        err = none
          ∧ ∃ n stc tmo, hdl n = OptVal.vnil
              ∧ evs.getLast? = some (LoopEvent.invoke n stc tmo))
    ∧ (∀ (db : Database) (hdl : Nat → OptVal)
      (options : List (String × OptVal)) (k stc : Nat),
        hdl 0 = OptVal.vnil →
        Database.Changes db hdl options
            (List.replicate k ConnOutcome.connFail ++ [ConnOutcome.connOk stc])
          = RunState.done
              (List.flatten (List.replicate k
                 [LoopEvent.attempt (firstParams options),
                  LoopEvent.sleep db.changesFailDelay])
               ++ [LoopEvent.attempt (firstParams options),
                   LoopEvent.invoke 0 stc
                     (changesTimeoutNs (i64defopt options "heartbeat" 5000))])
              none) := by
  constructor
  · intro db hdl options outcomes evs err hyp
    exact changesRun_done options db.changesFailDelay hdl outcomes _ _ evs err
      hyp
  · intro db hdl options k stc hnil
    unfold Database.Changes
    rw [changesRun_replicate_fail, changesRun_connOk_nil _ _ _ _ _ _ _ hnil]
    rfl

/-- C5, witness: a concrete terminating run (one successful connection, a
handler that returns nil) returns the nil error and ends on the sentinel
invocation. -/
theorem changes_returns_nil_witness :
    (none : Option String) = none
    ∧ ∃ n stc tmo, (fun _ => OptVal.vnil) n = OptVal.vnil
        ∧ ([LoopEvent.attempt [("heartbeat", "5000")],
            LoopEvent.invoke 0 200 10000000000] : List LoopEvent).getLast?
          = some (LoopEvent.invoke n stc tmo) :=
  changes_returns_nil.1 (Database.mk "h" "p" "n" 5) (fun _ => OptVal.vnil) []
    [ConnOutcome.connOk 200]
    [LoopEvent.attempt [("heartbeat", "5000")],
     LoopEvent.invoke 0 200 10000000000]
    none (by decide)

/-- C9 (confirmed): the loop terminates exactly when the handler returns
the untyped nil interface: every terminating run ends on an invocation that
returned nil, a handler that never returns nil never terminates the run,
and the integer -1 that the `ChangeHandler` documentation names as the stop
signal does not stop the feed — it is adopted as the next `since` cursor
(`since=-1` in the follow-up request) and the loop reconnects. -/
theorem changes_terminates_iff_nil :
    (∀ (db : Database) (hdl : Nat → OptVal)
      (options : List (String × OptVal)) (outcomes : List ConnOutcome)
      (evs : List LoopEvent) (err : Option String),
        Database.Changes db hdl options outcomes = RunState.done evs err →
        ∃ n stc tmo, hdl n = OptVal.vnil
          ∧ evs.getLast? = some (LoopEvent.invoke n stc tmo))
    ∧ (∀ (db : Database) (hdl : Nat → OptVal)
      (options : List (String × OptVal)) (outcomes : List ConnOutcome),
        (∀ n, hdl n ≠ OptVal.vnil) →
        ∀ evs err,
          Database.Changes db hdl options outcomes ≠ RunState.done evs err)
    ∧ Database.Changes (Database.mk "h" "p" "n" 5)
          (fun _ => OptVal.vint (-1)) []
          [ConnOutcome.connOk 200, ConnOutcome.connOk 200]
        = RunState.running
            [LoopEvent.attempt [("heartbeat", "5000")],
             LoopEvent.invoke 0 200 10000000000,
             LoopEvent.attempt [("heartbeat", "5000"), ("since", "-1")],
             LoopEvent.invoke 1 200 10000000000]
            (OptVal.vint (-1)) 2
    ∧ findParam [("heartbeat", "5000"), ("since", "-1")] "since"
        = some "-1" := by
  refine ⟨?_, ?_, by decide, by decide⟩
  · intro db hdl options outcomes evs err hyp
    exact (changesRun_done options db.changesFailDelay hdl outcomes _ _ evs
      err hyp).2
  · intro db hdl options outcomes hne evs err hyp
    obtain ⟨-, n, stc, tmo, hnl, -⟩ :=
      changesRun_done options db.changesFailDelay hdl outcomes _ _ evs err hyp
    exact hne n hnl

/-- C9, witness: a run with one connection failure then a sentinel handler
terminates on the sentinel invocation, and a handler that always returns
the integer -1 never produces a terminated run state. -/
theorem changes_terminates_iff_nil_witness :
    (∃ n stc tmo, (fun _ => OptVal.vnil) n = OptVal.vnil
        ∧ ([LoopEvent.attempt [("heartbeat", "5000")],
            LoopEvent.sleep 5,
            LoopEvent.attempt [("heartbeat", "5000")],
            LoopEvent.invoke 0 300 10000000000] : List LoopEvent).getLast?
          = some (LoopEvent.invoke n stc tmo))
    ∧ Database.Changes (Database.mk "h" "p" "n" 5)
          (fun _ => OptVal.vint (-1)) [] [ConnOutcome.connOk 200]
        ≠ RunState.done [] none :=
  ⟨changes_terminates_iff_nil.1 (Database.mk "h" "p" "n" 5)
      (fun _ => OptVal.vnil) [] [ConnOutcome.connFail, ConnOutcome.connOk 300]
      [LoopEvent.attempt [("heartbeat", "5000")], LoopEvent.sleep 5,
       LoopEvent.attempt [("heartbeat", "5000")],
       LoopEvent.invoke 0 300 10000000000]
      none (by decide),
   changes_terminates_iff_nil.2.1 (Database.mk "h" "p" "n" 5)
      (fun _ => OptVal.vint (-1)) [] [ConnOutcome.connOk 200]
      (fun _ h => OptVal.noConfusion h) [] none⟩

/-- C6, witness: a reader with the 13-nanosecond timeout of the
`TestTimeoutClient` test of the repository sets a deadline before two reads
and passes the body results through; a reader with timeout 0 never sets a
deadline. -/
theorem timeoutClient_read_deadline_witness :
    (timeoutClient.reads (timeoutClient.mk 13)
        [(100, ReadResult.mk 4096 none),
         (200, ReadResult.mk 0 (some "EOF"))]).1
      = [TCEvent.setDeadline 113, TCEvent.bodyRead (ReadResult.mk 4096 none),
         TCEvent.setDeadline 213,
         TCEvent.bodyRead (ReadResult.mk 0 (some "EOF"))]
    ∧ (timeoutClient.reads (timeoutClient.mk 0)
        [(100, ReadResult.mk 4096 none)]).1
      = [TCEvent.bodyRead (ReadResult.mk 4096 none)] := by
  constructor
  · have := (timeoutClient_read_deadline (timeoutClient.mk 13)
      [(100, ReadResult.mk 4096 none),
       (200, ReadResult.mk 0 (some "EOF"))]).2.1 (by decide)
    rw [this]
    rfl
  · have := (timeoutClient_read_deadline (timeoutClient.mk 0)
      [(100, ReadResult.mk 4096 none)]).2.2 (by decide)
    rw [this]
    rfl

theorem decodeChangedRev_marshal (r : ChangedRev) :
    decodeChangedRev (marshalChangedRev r) = Except.ok r := rfl

theorem mapME_decodeChangedRev (l : List ChangedRev) :
    mapME decodeChangedRev (l.map marshalChangedRev) = Except.ok l := by
  induction l with
  | nil => rfl
  | cons a t ih =>
    rw [List.map_cons]
    simp only [mapME]
    rw [decodeChangedRev_marshal, ih]

theorem decodeChange_marshal (c : Change) :
    decodeChange (marshalChange c) = Except.ok c := by
  cases c with
  | mk seq id revs del =>
    show (match mapME decodeChangedRev (revs.map marshalChangedRev) with
          | Except.error e => Except.error e
          | Except.ok revs2 => Except.ok (Change.mk seq id revs2 del))
        = Except.ok (Change.mk seq id revs del)
    rw [mapME_decodeChangedRev]

theorem mapME_decodeChange (l : List Change) :
    mapME decodeChange (l.map marshalChange) = Except.ok l := by
  induction l with
  | nil => rfl
  | cons a t ih =>
    rw [List.map_cons]
    simp only [mapME]
    rw [decodeChange_marshal, ih]

/-- C8 (confirmed): encoding any `Changes` envelope and decoding the result
with `ReadAllChanges` succeeds and returns an envelope equal to the
original — the same number of entries, with `seq`, `id`, `changes` and
`deleted` fields equal to the originals, and the same `last_seq` value. -/
theorem ReadAllChanges_roundtrip (cs : Changes) :
    ReadAllChanges (marshalChanges cs) = Except.ok cs := by
  cases cs with
  | mk results lastSeq =>
    show (match mapME decodeChange (results.map marshalChange) with
          | Except.error e => Except.error e
          | Except.ok res => Except.ok (Changes.mk res lastSeq))
        = Except.ok (Changes.mk results lastSeq)
    rw [mapME_decodeChange]
